import Mathlib

/-!
Verification of the ASCII character library (src/ascii.rs).

The Rust type `Ascii` is a fieldless `#[repr(u8)]` enum with 128 variants whose
discriminants are exactly the byte values 0..=127, so its values are in
bijection with `Fin 128` and the derived `PartialEq`/`Ord` instances compare
discriminants, i.e. coincide with the order on `Fin 128`.  We embed the type as
`Fin 128`; `as_byte` extracts the discriminant.  Rust `char` is embedded as its
Unicode code point (a natural number); `u8` values as naturals below 256.
Fallible conversions (`Result<Ascii, ()>` / `Result<Ascii, IntoAsciiError>`,
where the error type carries no information) are embedded as `Option Ascii`.
-/

set_option maxRecDepth 4096

/-- The ASCII character type: the 128 enum variants, identified with their
`repr(u8)` discriminants 0..=127. -/
abbrev Ascii := Fin 128

namespace Ascii

/-- `Ascii::as_byte`: `*self as u8`, i.e. the enum discriminant. -/
def as_byte (a : Ascii) : Nat := a.val

/-- `Ascii::as_char`: `self.as_byte() as char`; a `char` is embedded as its
code point, and for a byte below 128 the cast yields that same code point. -/
def as_char (a : Ascii) : Nat := as_byte a

/-- `Ascii::from_byte`: `if ch <= 0x7F { Ok(ch.to_ascii_nocheck()) } else Err(())`,
where `to_ascii_nocheck` transmutes the byte into the enum. -/
def from_byte (b : Nat) : Option Ascii :=
  if h : b ≤ 0x7F then some ⟨b, by omega⟩ else none

/-- `impl IntoAscii for char`: `if self as u32 <= 0x7F { Ok((self as u8).into_ascii_unchecked()) } else Err(...)`.
Under the guard the code point is below 128, so the `as u8` truncation is the
identity and the transmute yields the enum value with that discriminant. -/
def char_into_ascii (c : Nat) : Option Ascii :=
  if h : c ≤ 0x7F then some ⟨c, by omega⟩ else none

/-- `u8::wrapping_sub` on byte values embedded as naturals below 256. -/
def wrapping_sub (a b : Nat) : Nat := (a + 256 - b) % 256

/-- Enum variant `Ascii::Tab` (discriminant 9). -/
def Tab : Ascii := ⟨9, by omega⟩

/-- Enum variant `Ascii::US` (discriminant 31). -/
def US : Ascii := ⟨31, by omega⟩

/-- Enum variant `Ascii::Space` (discriminant 32). -/
def Space : Ascii := ⟨32, by omega⟩

/-- Enum variant `Ascii::_0` (discriminant 48, the character zero). -/
def _0 : Ascii := ⟨48, by omega⟩

/-- Enum variant `Ascii::_5` (discriminant 53). -/
def _5 : Ascii := ⟨53, by omega⟩

/-- Enum variant `Ascii::_9` (discriminant 57). -/
def _9 : Ascii := ⟨57, by omega⟩

/-- Enum variant `Ascii::A` (discriminant 65). -/
def A : Ascii := ⟨65, by omega⟩

/-- Enum variant `Ascii::F` (discriminant 70). -/
def F : Ascii := ⟨70, by omega⟩

/-- Enum variant `Ascii::a` (discriminant 97). -/
def a : Ascii := ⟨97, by omega⟩

/-- Enum variant `Ascii::DEL` (discriminant 127). -/
def DEL : Ascii := ⟨127, by omega⟩

/-- `Ascii::is_alphabetic`: `let c = self.as_byte() | 0b010_0000; c >= b'a' && c <= b'z'`. -/
def is_alphabetic (x : Ascii) : Bool :=
  let c := as_byte x ||| 0b0100000
  decide (97 ≤ c) && decide (c ≤ 122)

/-- `Ascii::is_digit`: `self >= &Ascii::_0 && self <= &Ascii::_9`, using the
derived (discriminant) order. -/
def is_digit (x : Ascii) : Bool :=
  decide (_0 ≤ x) && decide (x ≤ _9)

/-- `Ascii::is_alphanumeric`: `self.is_alphabetic() || self.is_digit()`. -/
def is_alphanumeric (x : Ascii) : Bool :=
  is_alphabetic x || is_digit x

/-- `Ascii::is_control`: `self.as_byte() < 0x20 || *self == Ascii::DEL`. -/
def is_control (x : Ascii) : Bool :=
  decide (as_byte x < 0x20) || decide (x = DEL)

/-- `Ascii::is_graph`: `self.as_byte().wrapping_sub(0x21) < 0x5E`. -/
def is_graph (x : Ascii) : Bool :=
  decide (wrapping_sub (as_byte x) 0x21 < 0x5E)

/-- `Ascii::is_print`: `self.as_byte().wrapping_sub(0x20) < 0x5F`. -/
def is_print (x : Ascii) : Bool :=
  decide (wrapping_sub (as_byte x) 0x20 < 0x5F)

/-- `Ascii::is_punctuation`: `self.is_graph() && !self.is_alphanumeric()`. -/
def is_punctuation (x : Ascii) : Bool :=
  is_graph x && !(is_alphanumeric x)

/-- `Ascii::is_hex`: `self.is_digit() || (self.as_byte() | 32u8).wrapping_sub(b'a') < 6`. -/
def is_hex (x : Ascii) : Bool :=
  is_digit x || decide (wrapping_sub (as_byte x ||| 32) 97 < 6)

/-- `u8::to_ascii_uppercase` from the standard library: bytes in `b'a'..=b'z'`
are shifted down by 32, all other bytes are returned unchanged. -/
def u8_to_ascii_uppercase (b : Nat) : Nat :=
  if 97 ≤ b ∧ b ≤ 122 then b - 32 else b

/-- The shift in `u8_to_ascii_uppercase` keeps bytes below 128. -/
theorem u8_to_ascii_uppercase_lt (b : Nat) (h : b < 128) :
    u8_to_ascii_uppercase b < 128 := by
  unfold u8_to_ascii_uppercase
  split <;> omega

/-- `Ascii::to_ascii_lowercase` as written in the source:
`unsafe { self.as_byte().to_ascii_uppercase().to_ascii_nocheck() }` — note it
calls the byte-level UPPERCASE conversion. -/
def to_ascii_lowercase (x : Ascii) : Ascii :=
  ⟨u8_to_ascii_uppercase (as_byte x), u8_to_ascii_uppercase_lt (as_byte x) x.isLt⟩

end Ascii

/-- Claim C1: for every byte `b`, `from_byte b` succeeds if and only if
`b ≤ 127`; on success the result's underlying byte (`as_byte`) equals `b`
exactly, and for every `b` in `[128, 255]` it returns the error marker
(embedded as `none`). -/
theorem from_byte_range_totality :
    ∀ b : Fin 256,
      ((Ascii.from_byte b.val).isSome = decide (b.val ≤ 127)) ∧
      (Option.map Ascii.as_byte (Ascii.from_byte b.val) =
        if b.val ≤ 127 then some b.val else none) ∧
      ((Ascii.from_byte b.val = none) = (128 ≤ b.val)) := by
  decide

/-- Claim C2: the fallible `char` conversion (`impl IntoAscii for char`,
reached by `Ascii::from` on a `char`) succeeds if and only if the code point
is at most 127, in which case it agrees with `from_byte` on that code point;
every code point at least 128 — in particular the Greek letter lambda, code
point 955 — yields the error marker. -/
theorem char_into_ascii_boundary :
    (∀ c : Nat,
      ((Ascii.char_into_ascii c).isSome = decide (c ≤ 127)) ∧
      (Ascii.char_into_ascii c = if c ≤ 127 then Ascii.from_byte c else none)) ∧
    Ascii.char_into_ascii 955 = none := by
  refine ⟨fun c => ⟨?_, ?_⟩, by decide⟩ <;>
    simp only [Ascii.char_into_ascii, Ascii.from_byte] <;> split <;> simp_all

/-- Claim C3 (code evaluation at the failing inputs): the source's
`to_ascii_lowercase` maps the lowercase letter `a` (byte 97) to `A` (byte 65)
and leaves the uppercase letter `A` at byte 65, because its body invokes the
byte-level uppercase conversion; the documented lowercase behaviour would
leave byte 97 unchanged and map byte 65 to 97. -/
theorem to_ascii_lowercase_code_eval :
    Ascii.to_ascii_lowercase Ascii.a = Ascii.A ∧
    Ascii.to_ascii_lowercase Ascii.A = Ascii.A := by
  decide

/-- Claim C4: round-trip — for every valid `Ascii` value `x`,
`from_byte (as_byte x)` succeeds with exactly `x`, and the fallible `char`
conversion applied to `as_char x` succeeds with exactly `x`. -/
theorem ascii_round_trip :
    ∀ x : Ascii,
      Ascii.from_byte (Ascii.as_byte x) = some x ∧
      Ascii.char_into_ascii (Ascii.as_char x) = some x := by
  decide

/-- Claim C5: composition identities — for every `Ascii` value `x`,
`is_punctuation x` equals `is_graph x && !(is_alphanumeric x)` and
`is_alphanumeric x` equals `is_alphabetic x || is_digit x`, exactly. -/
theorem classification_composition :
    ∀ x : Ascii,
      Ascii.is_punctuation x = (Ascii.is_graph x && !(Ascii.is_alphanumeric x)) ∧
      Ascii.is_alphanumeric x = (Ascii.is_alphabetic x || Ascii.is_digit x) := by
  decide

/-- Claim C6: `is_graph` holds exactly on bytes in `[0x21, 0x7E]` and
`is_print` exactly on bytes in `[0x20, 0x7E]`; moreover the
wrapping-subtraction comparisons used by the implementation
(`wrapping_sub 0x21 < 0x5E`, `wrapping_sub 0x20 < 0x5F`) agree with the
direct two-sided range checks on the whole byte domain `[0, 255]`. -/
theorem graph_print_ranges :
    (∀ x : Ascii,
      (Ascii.is_graph x = decide (0x21 ≤ Ascii.as_byte x ∧ Ascii.as_byte x ≤ 0x7E)) ∧
      (Ascii.is_print x = decide (0x20 ≤ Ascii.as_byte x ∧ Ascii.as_byte x ≤ 0x7E))) ∧
    (∀ b : Fin 256,
      ((Ascii.wrapping_sub b.val 0x21 < 0x5E) = (0x21 ≤ b.val ∧ b.val ≤ 0x7E)) ∧
      ((Ascii.wrapping_sub b.val 0x20 < 0x5F) = (0x20 ≤ b.val ∧ b.val ≤ 0x7E))) := by
  decide

/-- Claim C7: `is_hex` holds exactly on the 22 bytes covering the digits
`0`–`9`, the lowercase letters `a`–`f` and the uppercase letters `A`–`F`;
in particular the characters `5`, `a` and `F` are hex digits and byte 32
(space) is not. -/
theorem hex_range :
    (∀ x : Ascii,
      Ascii.is_hex x =
        decide ((48 ≤ Ascii.as_byte x ∧ Ascii.as_byte x ≤ 57) ∨
                (97 ≤ Ascii.as_byte x ∧ Ascii.as_byte x ≤ 102) ∨
                (65 ≤ Ascii.as_byte x ∧ Ascii.as_byte x ≤ 70))) ∧
    Ascii.is_hex Ascii._5 = true ∧
    Ascii.is_hex Ascii.a = true ∧
    Ascii.is_hex Ascii.F = true ∧
    Ascii.is_hex Ascii.Space = false := by
  decide

/-- Claim C8: `is_control` holds exactly when the underlying byte is strictly
below 0x20 or equal to 0x7F (DEL); in particular byte 0x1F (US) and byte 0x7F
(DEL) are control characters while byte 0x20 (space) is not. -/
theorem control_boundary :
    (∀ x : Ascii,
      Ascii.is_control x = decide (Ascii.as_byte x < 0x20 ∨ Ascii.as_byte x = 0x7F)) ∧
    Ascii.is_control Ascii.US = true ∧
    Ascii.is_control Ascii.DEL = true ∧
    Ascii.is_control Ascii.Space = false := by
  decide

/-- Claim C9: equality and the derived total order on `Ascii` follow the
underlying byte — `x = y` if and only if `as_byte x = as_byte y`, and
`x ≤ y` if and only if `as_byte x ≤ as_byte y` (ASCII code-point order). -/
theorem order_follows_byte :
    ∀ x y : Ascii,
      (x = y ↔ Ascii.as_byte x = Ascii.as_byte y) ∧
      (x ≤ y ↔ Ascii.as_byte x ≤ Ascii.as_byte y) := by
  intro x y
  exact ⟨Fin.ext_iff, Iff.rfl⟩

/-- Claim C10: `is_control` and `is_print` partition the 128 valid values —
for every `Ascii` value `x`, `is_print x` equals `!(is_control x)`. -/
theorem print_is_not_control :
    ∀ x : Ascii, Ascii.is_print x = !(Ascii.is_control x) := by
  decide
